import Mathlib

/-!
Verification of the persona-guardian core and analyzer.

A shallow embedding of `src/persona_guardian/core.py` (persona-vector
construction) and `src/persona_guardian/analyzer.py` (scoring, dataset
analysis, steering generation), together with theorems settling the
specification claims about them.

Numeric modelling: Python floats are modelled as exact rationals (`ℚ`);
the floating-point square root (used only by `torch.Tensor.norm` and
`torch.Tensor.std`) is an explicit parameter `sqrtFn : ℚ → ℚ` of the
embedding, so that every definition stays computable.  The language-model
forward pass and the tokenizer are external collaborators and are modelled
as abstract functions supplied to each operation, exactly as wide as the
interface the Python code consumes.
-/

namespace PersonaGuardian

/-- Python list indexing `l[i]` with support for negative indices; `none`
models a raised `IndexError`. -/
def pyIdx {α : Type*} (l : List α) (i : Int) : Option α :=
  if 0 ≤ i then l.get? i.toNat
  else if (-i).toNat ≤ l.length then l.get? (l.length - (-i).toNat)
  else none

/-- Left-to-right, non-overlapping replacement of the pattern by the
substitute over a character list, with fuel bounding the recursion (the fuel
is initialised to the text length, which dominates the number of steps). -/
def formatReplaceAux (pat sub : List Char) : Nat → List Char → List Char
  | 0, cs => cs
  | _ + 1, [] => []
  | fuel + 1, c :: rest =>
    if pat.isPrefixOf (c :: rest) then
      sub ++ formatReplaceAux pat sub fuel (rest.drop (pat.length - 1))
    else
      c :: formatReplaceAux pat sub fuel rest

/-- `_format_system_prompt`: substitute the trait description into the
`{description}` slot of a prompt template (Python `template.format`). -/
def formatSystemPrompt (template description : String) : String :=
  String.mk (formatReplaceAux ("\x7bdescription\x7d".toList) (description.toList)
    (template.toList.length) (template.toList))

/-- The `TraitConfig` dataclass of `core.py`. -/
structure TraitConfig where
  name : String
  description : String
  positive_prompt_template : String
  negative_prompt_template : String
  probe_questions : List String
  layer_index : Int := -1

/-- `_build_prompt_pairs`: the single (positive, negative) system-prompt
pair of a trait. -/
def buildPromptPairs (trait : TraitConfig) : List (String × String) :=
  [(formatSystemPrompt trait.positive_prompt_template trait.description,
    formatSystemPrompt trait.negative_prompt_template trait.description)]

/-- Abstract causal language model used during vector building: maps the full
prompt text to its hidden states, one list of per-token vectors per layer
(the batch dimension, always of size one here, is dropped). -/
def CoreModel (d : Nat) := String → List (List (Fin d → ℚ))

/-- The prompt text built inside `_capture_hidden_states`. -/
def capturePromptText (systemPrompt question : String) : String :=
  systemPrompt ++ "\n\nUser: " ++ question ++ "\nAssistant:"

/-- `_capture_hidden_states`: the hidden state at the configured layer
(`hidden_states[layer_index]`, Python indexing) and at the last token
position (`[:, -1, :]`); `none` models a raised `IndexError`. -/
def captureHiddenStates {d : Nat} (m : CoreModel d) (systemPrompt question : String)
    (layerIndex : Int) : Option (Fin d → ℚ) :=
  match pyIdx (m (capturePromptText systemPrompt question)) layerIndex with
  | none => none
  | some layer => layer.getLast?

/-- One hidden-state extraction performed by the vector builder: which framing
(positive or negative) and which probe question it used. -/
structure ExtractEvent where
  positive : Bool
  question : String
deriving DecidableEq

/-- The inner loop of `build_persona_vector`: for each probe question in
order, one positive-framing extraction then one negative-framing extraction.
Returns the two collected vector lists (or an error as soon as an extraction
raises) together with the trace of attempted extractions, in order. -/
def buildQuestionLoop {d : Nat} (m : CoreModel d) (layerIndex : Int)
    (posSys negSys : String) :
    List String → Except Unit (List (Fin d → ℚ) × List (Fin d → ℚ)) × List ExtractEvent
  | [] => (.ok ([], []), [])
  | q :: rest =>
    match captureHiddenStates m posSys q layerIndex with
    | none => (.error (), [⟨true, q⟩])
    | some pv =>
      match captureHiddenStates m negSys q layerIndex with
      | none => (.error (), [⟨true, q⟩, ⟨false, q⟩])
      | some nv =>
        match buildQuestionLoop m layerIndex posSys negSys rest with
        | (.ok (pvs, nvs), tr) => (.ok (pv :: pvs, nv :: nvs), ⟨true, q⟩ :: ⟨false, q⟩ :: tr)
        | (.error e, tr) => (.error e, ⟨true, q⟩ :: ⟨false, q⟩ :: tr)

/-- The outer loop of `build_persona_vector` over the prompt pairs (a
singleton list in this codebase). -/
def buildPairsLoop {d : Nat} (m : CoreModel d) (layerIndex : Int) (qs : List String) :
    List (String × String) →
    Except Unit (List (Fin d → ℚ) × List (Fin d → ℚ)) × List ExtractEvent
  | [] => (.ok ([], []), [])
  | (posSys, negSys) :: rest =>
    match buildQuestionLoop m layerIndex posSys negSys qs with
    | (.error e, tr) => (.error e, tr)
    | (.ok (pvs, nvs), tr) =>
      match buildPairsLoop m layerIndex qs rest with
      | (.error e, tr2) => (.error e, tr ++ tr2)
      | (.ok (pvs2, nvs2), tr2) => (.ok (pvs ++ pvs2, nvs ++ nvs2), tr ++ tr2)

/-- `torch.stack(vs).mean(dim=0)`: the elementwise mean over a list of
vectors (the probe-question axis). -/
def vmean {d : Nat} (vs : List (Fin d → ℚ)) : Fin d → ℚ :=
  fun i => (vs.map (fun v => v i)).sum / (vs.length : ℚ)

/-- The sum of squared entries of a vector. -/
def sumSq {d : Nat} (v : Fin d → ℚ) : ℚ := ∑ i, v i ^ 2

/-- `v.norm()`: the L2 norm, with the floating-point square root modelled by
the explicit parameter `sqrtFn`. -/
def l2norm {d : Nat} (sqrtFn : ℚ → ℚ) (v : Fin d → ℚ) : ℚ := sqrtFn (sumSq v)

/-- The final normalization step of `build_persona_vector`:
`persona_vector / (persona_vector.norm() + 1e-8)`. -/
def normalizeStep {d : Nat} (sqrtFn : ℚ → ℚ) (v : Fin d → ℚ) : Fin d → ℚ :=
  fun i => v i / (l2norm sqrtFn v + 1e-8)

/-- `build_persona_vector` up to (but not including) normalization: run the
extraction loops, average the positive and the negative collections and
subtract (`pos_mean - neg_mean`), returning also the trace of extractions.
`.error` models a raised exception (a failed extraction, or `torch.stack`
applied to an empty list when there are no probe questions). -/
def buildRawDirectionTraced {d : Nat} (m : CoreModel d) (trait : TraitConfig) :
    Except Unit (Fin d → ℚ) × List ExtractEvent :=
  match buildPairsLoop m trait.layer_index trait.probe_questions (buildPromptPairs trait) with
  | (.error e, tr) => (.error e, tr)
  | (.ok (pvs, nvs), tr) =>
    if pvs.isEmpty then (.error (), tr)
    else (.ok (fun i => vmean pvs i - vmean nvs i), tr)

/-- The pre-normalization difference vector `pos_mean - neg_mean` computed by
`build_persona_vector`. -/
def buildRawDirection {d : Nat} (m : CoreModel d) (trait : TraitConfig) :
    Except Unit (Fin d → ℚ) :=
  (buildRawDirectionTraced m trait).1

/-- The ordered trace of hidden-state extractions attempted by
`build_persona_vector`. -/
def buildTrace {d : Nat} (m : CoreModel d) (trait : TraitConfig) : List ExtractEvent :=
  (buildRawDirectionTraced m trait).2

/-- `build_persona_vector`: the normalized persona vector. -/
def buildPersonaVector {d : Nat} (sqrtFn : ℚ → ℚ) (m : CoreModel d)
    (trait : TraitConfig) : Except Unit (Fin d → ℚ) :=
  (buildRawDirection m trait).map (normalizeStep sqrtFn)

/-- `PersonaVectorAnalyzer`: the abstract model (text to hidden states, as
layers times token positions) together with the loaded persona vector. -/
structure Analyzer (d : Nat) where
  hiddenStates : String → List (List (Fin d → ℚ))
  personaVector : Fin d → ℚ

/-- `torch.dot`. -/
def dotQ {d : Nat} (v w : Fin d → ℚ) : ℚ := ∑ i, v i * w i

/-- `PersonaVectorAnalyzer.get_hidden_state`. -/
def getHiddenState {d : Nat} (a : Analyzer d) (text : String) (layerIndex : Int) :
    Option (Fin d → ℚ) :=
  match pyIdx (a.hiddenStates text) layerIndex with
  | none => none
  | some layer => layer.getLast?

/-- `PersonaVectorAnalyzer.score_text` (default layer index `-1`); `none`
models a raised exception. -/
def scoreText {d : Nat} (a : Analyzer d) (text : String) : Option ℚ :=
  (getHiddenState a text (-1)).map (fun h => dotQ h a.personaVector)

/-- The hidden state at the last layer and last token position of a text,
stated directly (the extraction point the spec names for scoring). -/
def lastLayerLastToken {d : Nat} (a : Analyzer d) (text : String) : Option (Fin d → ℚ) :=
  (a.hiddenStates text).getLast?.bind List.getLast?

/-- Parsed JSON values: the result of a successful `json.loads`. -/
inductive JsonVal where
  | jnull
  | jbool (b : Bool)
  | jnum (q : ℚ)
  | jstr (s : String)
  | jarr (elems : List JsonVal)
  | jobj (fields : List (String × JsonVal))

/-- Python truthiness of a parsed JSON value. -/
def JsonVal.truthy : JsonVal → Bool
  | .jnull => false
  | .jbool b => b
  | .jnum q => decide (q ≠ 0)
  | .jstr s => decide (s ≠ "")
  | .jarr elems => !elems.isEmpty
  | .jobj fields => !fields.isEmpty

/-- Python `dict.get` on a parsed JSON object; `none` models Python `None`.
Keys of an object produced by `json.loads` are unique. -/
def dictGet (fields : List (String × JsonVal)) (key : String) : Option JsonVal :=
  (fields.find? (fun f => f.1 == key)).map (fun f => f.2)

/-- Python `str()` applied to a parsed JSON value (the `str(obj)` fallback of
`analyze_dataset_file`); the exact rendering of numbers is not claim-relevant,
only that the result is a non-empty string. -/
def pyStr : JsonVal → String
  | .jnull => "None"
  | .jbool true => "True"
  | .jbool false => "False"
  | .jnum q => toString q
  | .jstr s => "\x27" ++ s ++ "\x27"
  | .jarr elems =>
      "[" ++ String.intercalate ", " (elems.attach.map (fun e => pyStr e.1)) ++ "]"
  | .jobj fields =>
      "\x7b" ++ String.intercalate ", "
        (fields.attach.map (fun f => "\x27" ++ f.1.1 ++ "\x27: " ++ pyStr f.1.2)) ++ "\x7d"
decreasing_by
  · have h := List.sizeOf_lt_of_mem e.2
    simp only [JsonVal.jarr.sizeOf_spec]
    omega
  · have h := List.sizeOf_lt_of_mem f.2
    rcases f with ⟨⟨k, v⟩, hmem⟩
    simp only [Prod.mk.sizeOf_spec] at h
    simp only [JsonVal.jobj.sizeOf_spec]
    omega

/-- Python `a or b` where `a` is the result of `dict.get` (`None` when the
key is missing): keep `a` when truthy, otherwise fall through to `b`. -/
def pyOr (a : Option JsonVal) (b : JsonVal) : JsonVal :=
  match a with
  | none => b
  | some v => if v.truthy then v else b

/-- The text-field fallback chain of `analyze_dataset_file`:
`obj.get("text") or obj.get("content") or obj.get("instruction") or str(obj)`. -/
def resolveText (fields : List (String × JsonVal)) : JsonVal :=
  pyOr (dictGet fields "text")
    (pyOr (dictGet fields "content")
      (pyOr (dictGet fields "instruction")
        (.jstr (pyStr (.jobj fields)))))

/-- What happens to one line of the dataset file. -/
inductive LineOutcome where
  | scored (text : String) (score : ℚ)
  | skippedLogged
  | ignored
deriving DecidableEq

/-- The per-line body of the `analyze_dataset_file` loop.  A `json.loads`
failure, an `AttributeError` from `.get` on a non-object, or an exception
raised while scoring is caught by the `except` handler, which prints a
"Skipping line" message (`skippedLogged`).  A resolved text value that is not
a non-empty string fails the `isinstance`/length guard and the record is
silently passed over (`ignored`). -/
def processLine {d : Nat} (a : Analyzer d) (line : Except String JsonVal) : LineOutcome :=
  match line with
  | .error _ => .skippedLogged
  | .ok (.jobj fields) =>
    match resolveText fields with
    | .jstr s =>
      if 0 < s.length then
        match scoreText a s with
        | some sc => .scored s sc
        | none => .skippedLogged
      else .ignored
    | _ => .ignored
  | .ok _ => .skippedLogged

/-- The records of the dataset that are successfully scored, in order,
together with their scores. -/
def scoredPairs {d : Nat} (a : Analyzer d) (lines : List (Except String JsonVal)) :
    List (String × ℚ) :=
  lines.filterMap (fun line =>
    match processLine a line with
    | .scored t sc => some (t, sc)
    | _ => none)

/-- The number of lines for which a "Skipping line" message is printed. -/
def skippedLogCount {d : Nat} (a : Analyzer d)
    (lines : List (Except String JsonVal)) : Nat :=
  lines.countP (fun line => processLine a line == .skippedLogged)

/-- The number of lines silently passed over (resolved text not a non-empty
string). -/
def ignoredCount {d : Nat} (a : Analyzer d)
    (lines : List (Except String JsonVal)) : Nat :=
  lines.countP (fun line => processLine a line == .ignored)

/-- Lines on which the `try` body raises before the scoring guard:
`json.loads` failures and parsed values without a `.get` method. -/
def lineFailsParse : Except String JsonVal → Bool
  | .error _ => true
  | .ok (.jobj _) => false
  | .ok _ => true

/-- Whether the text-field fallback chain resolves to a string value. -/
def resolvedTextIsString (fields : List (String × JsonVal)) : Bool :=
  match resolveText fields with
  | .jstr _ => true
  | _ => false

/-- The scores in sorted order (torch reduction results depend only on the
sorted multiset of scores). -/
def sortScores (l : List ℚ) : List ℚ := l.insertionSort (· ≤ ·)

/-- `torch.Tensor.min` (raises on an empty tensor). -/
def tensorMin (l : List ℚ) : Except String ℚ :=
  match l with
  | [] => .error "min(): empty tensor"
  | _ :: _ => .ok ((sortScores l).getD 0 0)

/-- `torch.Tensor.max` (raises on an empty tensor). -/
def tensorMax (l : List ℚ) : Except String ℚ :=
  match l with
  | [] => .error "max(): empty tensor"
  | _ :: _ => .ok ((sortScores l).getD (l.length - 1) 0)

/-- `torch.Tensor.median`: the lower middle element of the sorted scores
(raises on an empty tensor). -/
def tensorMedian (l : List ℚ) : Except String ℚ :=
  match l with
  | [] => .error "median(): empty tensor"
  | _ :: _ => .ok ((sortScores l).getD ((l.length - 1) / 2) 0)

/-- The value computed by `torch.Tensor.quantile` on a non-empty tensor:
linear interpolation between the two nearest sorted values. -/
def quantileVal (l : List ℚ) (q : ℚ) : ℚ :=
  let s := sortScores l
  let pos : ℚ := q * ((l.length : ℚ) - 1)
  let i : Nat := (⌊pos⌋).toNat
  let lo := s.getD i 0
  let hi := s.getD (min (i + 1) (l.length - 1)) 0
  lo + (pos - (i : ℚ)) * (hi - lo)

/-- `torch.Tensor.quantile` with its default linear interpolation between the
two nearest sorted values (raises on an empty tensor). -/
def tensorQuantile (l : List ℚ) (q : ℚ) : Except String ℚ :=
  match l with
  | [] => .error "quantile(): empty tensor"
  | _ :: _ => .ok (quantileVal l q)

/-- One stored example (`{"text": text[:100], "score": score}`). -/
structure ExampleEntry where
  text : String
  score : ℚ
deriving DecidableEq

/-- The statistics dictionary returned by `analyze_dataset_file`.
`std_score` applies `sqrtFn` to the Bessel-corrected variance (`torch.std`);
for a single score torch yields NaN, which this rational model cannot
represent (division by zero yields 0 in `ℚ`) — no claim depends on
`std_score`. -/
structure AnalysisResult where
  trait_name : String
  total_examples : Nat
  mean_score : ℚ
  std_score : ℚ
  min_score : ℚ
  max_score : ℚ
  median_score : ℚ
  percentile_90 : ℚ
  percentile_10 : ℚ
  high_trait_examples : List ExampleEntry
  low_trait_examples : List ExampleEntry
deriving DecidableEq

/-- `PersonaVectorAnalyzer.analyze_dataset_file`, applied to the parsed lines
of the dataset file.  `.error` models an uncaught exception escaping the
function (the per-record `except` handler never aborts the loop; only the
statistics reductions can raise). -/
def analyzeDatasetFile {d : Nat} (a : Analyzer d) (sqrtFn : ℚ → ℚ)
    (lines : List (Except String JsonVal)) (traitName : String) :
    Except String AnalysisResult := do
  let pairs := scoredPairs a lines
  let scores := pairs.map Prod.snd
  let firstTen : List ExampleEntry :=
    (pairs.take 10).map (fun p => { text := p.1.take 100, score := p.2 })
  let mean : ℚ := scores.sum / (scores.length : ℚ)
  let stdv : ℚ :=
    sqrtFn ((scores.map (fun x => (x - mean) ^ 2)).sum / ((scores.length : ℚ) - 1))
  let mn ← tensorMin scores
  let mx ← tensorMax scores
  let med ← tensorMedian scores
  let p90 ← tensorQuantile scores (9 / 10)
  let p10 ← tensorQuantile scores (1 / 10)
  let zipped := (scores.take 100).zip (firstTen.take 100)
  let highFinal := firstTen ++ (zipped.filter (fun z => decide (p90 ≤ z.1))).map Prod.snd
  let lowFinal :=
    (zipped.filter (fun z => !(decide (p90 ≤ z.1)) && decide (z.1 ≤ p10))).map Prod.snd
  pure {
    trait_name := traitName
    total_examples := scores.length
    mean_score := mean
    std_score := stdv
    min_score := mn
    max_score := mx
    median_score := med
    percentile_90 := p90
    percentile_10 := p10
    high_trait_examples := highFinal.take 5
    low_trait_examples := lowFinal.take 5 }

/-- Whether an `Except` computation returned normally. -/
def exceptIsOk {ε α : Type*} : Except ε α → Bool
  | .ok _ => true
  | .error _ => false

/-- The abstract model interface consumed by `generate_with_steering`:
tokenizer encode/decode, the final-layer hidden state at the last position of
a token sequence (`outputs.hidden_states[-1][:, -1:, :]`), and the output
projection `model.lm_head` producing logits over the vocabulary. -/
structure SteerLM (d : Nat) where
  eosTokenId : Nat
  encode : String → List Nat
  decode : List Nat → String
  lastHidden : List Nat → Fin d → ℚ
  lmHead : (Fin d → ℚ) → List ℚ

/-- The steering perturbation applied to the hidden state: subtract
`strength * persona_vector` when the direction is exactly "reduce",
otherwise add it. -/
def steeredHidden {d : Nat} (pv : Fin d → ℚ) (strength : ℚ) (dirn : String)
    (h : Fin d → ℚ) : Fin d → ℚ :=
  if dirn = "reduce" then fun i => h i - strength * pv i
  else fun i => h i + strength * pv i

/-- `torch.argmax` over the vocabulary dimension: the index of the first
maximal logit (0 on an empty list; the vocabulary is never empty). -/
def argmaxIdx (l : List ℚ) : Nat :=
  (l.foldl (fun acc x =>
      if acc.2.2 < x then (acc.1 + 1, acc.1, x) else (acc.1 + 1, acc.2.1, acc.2.2))
    (0, 0, l.headD 0)).2.1

/-- One decoding step of `generate_with_steering`: forward pass, steering
perturbation, `lm_head` projection, greedy argmax. -/
def nextToken {d : Nat} (m : SteerLM d) (pv : Fin d → ℚ) (strength : ℚ) (dirn : String)
    (currentIds : List Nat) : Nat :=
  argmaxIdx (m.lmHead (steeredHidden pv strength dirn (m.lastHidden currentIds)))

/-- The decoding loop of `generate_with_steering`: at most `fuel` steps,
appending each chosen token and stopping early (after appending) when the
end-of-sequence token is chosen. -/
def steerLoop {d : Nat} (m : SteerLM d) (pv : Fin d → ℚ) (strength : ℚ) (dirn : String) :
    Nat → List Nat → List Nat
  | 0, _ => []
  | fuel + 1, currentIds =>
    let next := nextToken m pv strength dirn currentIds
    if next = m.eosTokenId then [next]
    else next :: steerLoop m pv strength dirn fuel (currentIds ++ [next])

/-- The list of generated token ids produced by `generate_with_steering`. -/
def generatedTokens {d : Nat} (m : SteerLM d) (pv : Fin d → ℚ) (prompt : String)
    (maxNewTokens : Nat) (strength : ℚ) (dirn : String) : List Nat :=
  steerLoop m pv strength dirn maxNewTokens (m.encode prompt)

/-- The result dictionary of `generate_with_steering`. -/
structure SteeringResult where
  prompt : String
  generated_text : String
  full_output : String
  steering_strength : ℚ
  steer_direction : String
  tokens_generated : Nat
deriving DecidableEq

/-- `PersonaVectorAnalyzer.generate_with_steering`. -/
def generateWithSteering {d : Nat} (m : SteerLM d) (pv : Fin d → ℚ) (prompt : String)
    (maxNewTokens : Nat) (strength : ℚ) (dirn : String) : SteeringResult :=
  let gen := generatedTokens m pv prompt maxNewTokens strength dirn
  { prompt := prompt
    generated_text := m.decode gen
    full_output := prompt ++ m.decode gen
    steering_strength := strength
    steer_direction := dirn
    tokens_generated := gen.length }

/-- Modelled from the spec: plain unsteered greedy generation.  Spec §8
compares steering at strength 0 with unsteered generation; the repository has
no separate unsteered decoding loop, so this reference loop restates the
spec's greedy decoding without the hidden-state perturbation. -/
def plainGreedyLoop {d : Nat} (m : SteerLM d) : Nat → List Nat → List Nat
  | 0, _ => []
  | fuel + 1, currentIds =>
    let next := argmaxIdx (m.lmHead (m.lastHidden currentIds))
    if next = m.eosTokenId then [next]
    else next :: plainGreedyLoop m fuel (currentIds ++ [next])

/-! Concrete instances used to exercise the embedding on closed inputs. -/

/-- Length-scoring analyzer for concrete test inputs: one layer, one token
position, hidden value equal to the text length, persona vector constantly 1,
so that every text scores exactly its character count. -/
def lenAnalyzer : Analyzer 1 :=
  { hiddenStates := fun s => [[fun _ => (s.length : ℚ)]], personaVector := fun _ => 1 }

/-- A concrete dataset of two well-formed records with distinct scores. -/
def twoRecordLines : List (Except String JsonVal) :=
  [.ok (.jobj [("text", .jstr "a")]), .ok (.jobj [("text", .jstr "bb")])]

/-- A concrete dataset file of four lines: three records carrying a `text`
field and one malformed line on which `json.loads` raises. -/
def fourLineDataset : List (Except String JsonVal) :=
  [.ok (.jobj [("text", .jstr "a")]), .ok (.jobj [("text", .jstr "bb")]),
   .ok (.jobj [("text", .jstr "ccc")]), .error "Expecting value"]

/-- A record whose `text` field holds a number rather than a string. -/
def numberTextLine : Except String JsonVal := .ok (.jobj [("text", .jnum 5)])

/-- A concrete steering model: vocabulary of size three, end-of-sequence
token 0, hidden value equal to the current sequence length. -/
def demoSteerLM : SteerLM 1 :=
  { eosTokenId := 0
    encode := fun _ => [1]
    decode := fun ids => String.mk (ids.map (fun _ => 'x'))
    lastHidden := fun ids _ => (ids.length : ℚ)
    lmHead := fun h => [h 0, 1, 2] }

/-- A constant-hidden-state core model for the vector-builder witness. -/
def onesCoreModel : CoreModel 1 := fun _ => [[fun _ => 1]]

/-- A one-probe-question trait configuration (default layer index -1). -/
def demoTrait : TraitConfig :=
  { name := "sycophancy", description := "D", positive_prompt_template := "p",
    negative_prompt_template := "n", probe_questions := ["q"] }

/-- A core model whose hidden value is the prompt length scaled by 1e-8, so
that the raw difference vector is barely above the epsilon scale. -/
def tinyDiffModel : CoreModel 1 := fun t => [[fun _ => (t.length : ℚ) * (1 / 100000000)]]

/-- A trait whose positive and negative system prompts differ in length by
two characters. -/
def lenDiffTrait : TraitConfig :=
  { name := "t", description := "D", positive_prompt_template := "PP",
    negative_prompt_template := "", probe_questions := ["q"] }

/-- A square-root model exact at the two points reached from
`tinyDiffModel` (sums of squares 4e-16 and 4/9). -/
def tinySqrt : ℚ → ℚ := fun x =>
  if x = 1 / 2500000000000000 then 1 / 50000000
  else if x = 4 / 9 then 2 / 3 else 0

/-- A core model whose hidden value is the prompt length scaled by 1e-4. -/
def smallDiffModel : CoreModel 1 := fun t => [[fun _ => (t.length : ℚ) * (1 / 10000)]]

/-- A square-root model exact at the two points reached from
`smallDiffModel` (sums of squares 4e-8 and (20000/20001)^2). -/
def smallSqrt : ℚ → ℚ := fun x =>
  if x = 1 / 25000000 then 1 / 5000
  else if x = 400000000 / 400040001 then 20000 / 20001 else 0

/-- The statistics record produced for `twoRecordLines` under `lenAnalyzer`
and the identity square-root model (scores 1 and 2). -/
def twoRecordStats : AnalysisResult :=
  { trait_name := "sycophancy", total_examples := 2, mean_score := 3 / 2,
    std_score := 1 / 2, min_score := 1, max_score := 2, median_score := 1,
    percentile_90 := 19 / 10, percentile_10 := 11 / 10,
    high_trait_examples := [⟨"a", 1⟩, ⟨"bb", 2⟩, ⟨"bb", 2⟩],
    low_trait_examples := [⟨"a", 1⟩] }

/-- The statistics record produced for `fourLineDataset` under `lenAnalyzer`
and the identity square-root model (scores 1, 2 and 3; one line skipped). -/
def fourLineStats : AnalysisResult :=
  { trait_name := "sycophancy", total_examples := 3, mean_score := 2,
    std_score := 1, min_score := 1, max_score := 3, median_score := 2,
    percentile_90 := 14 / 5, percentile_10 := 6 / 5,
    high_trait_examples := [⟨"a", 1⟩, ⟨"bb", 2⟩, ⟨"ccc", 3⟩, ⟨"ccc", 3⟩],
    low_trait_examples := [⟨"a", 1⟩] }

/-! General lemmas about the embedding, shared by the claim theorems. -/

theorem exceptBind_ok {ε α β : Type} (a : α) (f : α → Except ε β) :
    (Except.ok a : Except ε α) >>= f = f a := rfl

theorem exceptBind_error {ε α β : Type} (e : ε) (f : α → Except ε β) :
    (Except.error e : Except ε α) >>= f = .error e := rfl

theorem pyIdx_neg_one {α : Type*} (l : List α) : pyIdx l (-1) = l.getLast? := by
  cases l with
  | nil => rfl
  | cons x xs => simp [pyIdx, List.getLast?_eq_getElem?]

theorem resolveText_single_text (s : String) (h : s ≠ "") :
    resolveText [("text", JsonVal.jstr s)] = .jstr s := by
  simp [resolveText, dictGet, pyOr, JsonVal.truthy, h]

theorem processLine_single_text {d : Nat} (a : Analyzer d) (s : String) (v : ℚ)
    (h : s ≠ "") (hl : 0 < s.length) (hs : scoreText a s = some v) :
    processLine a (.ok (.jobj [("text", JsonVal.jstr s)])) = .scored s v := by
  simp [processLine, resolveText_single_text s h, hl, hs]

theorem processLine_error_line {d : Nat} (a : Analyzer d) (e : String) :
    processLine a (.error e) = .skippedLogged := rfl

theorem lenAnalyzer_score (s : String) : scoreText lenAnalyzer s = some ((s.length : ℚ)) := by
  norm_num [scoreText, getHiddenState, lenAnalyzer, pyIdx, dotQ, Fin.sum_univ_one]

theorem steeredHidden_zero {d : Nat} (pv : Fin d → ℚ) (dirn : String) (h : Fin d → ℚ) :
    steeredHidden pv 0 dirn h = h := by
  funext i
  simp only [steeredHidden]
  split <;> ring_nf

theorem steerLoop_zero_strength {d : Nat} (m : SteerLM d) (pv : Fin d → ℚ) (dirn : String) :
    ∀ (fuel : Nat) (currentIds : List Nat),
      steerLoop m pv 0 dirn fuel currentIds = plainGreedyLoop m fuel currentIds := by
  intro fuel
  induction fuel with
  | zero => intro c; rfl
  | succ n ih =>
    intro c
    simp only [steerLoop, plainGreedyLoop, nextToken, steeredHidden_zero, ih]

theorem steeredHidden_nonreduce {d : Nat} (pv : Fin d → ℚ) (strength : ℚ) (dirn : String)
    (hd : dirn ≠ "reduce") (h : Fin d → ℚ) :
    steeredHidden pv strength dirn h = fun i => h i + strength * pv i := by
  simp [steeredHidden, hd]

theorem steerLoop_nonreduce {d : Nat} (m : SteerLM d) (pv : Fin d → ℚ) (strength : ℚ)
    (dirn : String) (hd : dirn ≠ "reduce") :
    ∀ (fuel : Nat) (currentIds : List Nat),
      steerLoop m pv strength dirn fuel currentIds
        = steerLoop m pv strength "amplify" fuel currentIds := by
  intro fuel
  induction fuel with
  | zero => intro c; rfl
  | succ n ih =>
    intro c
    simp only [steerLoop, nextToken, steeredHidden_nonreduce pv strength dirn hd,
      steeredHidden_nonreduce pv strength "amplify" (by decide), ih]

theorem steerLoop_length_le {d : Nat} (m : SteerLM d) (pv : Fin d → ℚ) (strength : ℚ)
    (dirn : String) :
    ∀ (fuel : Nat) (currentIds : List Nat),
      (steerLoop m pv strength dirn fuel currentIds).length ≤ fuel := by
  intro fuel
  induction fuel with
  | zero => intro c; simp [steerLoop]
  | succ n ih =>
    intro c
    simp only [steerLoop]
    split
    · simp
    · simpa using ih (c ++ [nextToken m pv strength dirn c])

theorem steerLoop_no_eos_before_last {d : Nat} (m : SteerLM d) (pv : Fin d → ℚ)
    (strength : ℚ) (dirn : String) :
    ∀ (fuel : Nat) (currentIds : List Nat) (i : Nat),
      i + 1 < (steerLoop m pv strength dirn fuel currentIds).length →
      (steerLoop m pv strength dirn fuel currentIds).getD i 0 ≠ m.eosTokenId := by
  intro fuel
  induction fuel with
  | zero => intro c i hi; simp [steerLoop] at hi
  | succ n ih =>
    intro c i hi
    simp only [steerLoop] at hi ⊢
    by_cases he : nextToken m pv strength dirn c = m.eosTokenId
    · simp [he] at hi
    · simp only [if_neg he] at hi ⊢
      cases i with
      | zero => simpa using he
      | succ j =>
        simp only [List.getD_cons_succ]
        exact ih (c ++ [nextToken m pv strength dirn c]) j
          (by simpa [Nat.succ_lt_succ_iff] using hi)

/-- C3: `score_text` returns exactly the dot product of the hidden state at
the last layer and last token position of the text with the loaded persona
vector (propagating failure when those hidden states are absent). -/
theorem score_text_is_dot_last_layer_last_token {d : Nat} (a : Analyzer d) (text : String) :
    scoreText a text
      = (lastLayerLastToken a text).map (fun h => dotQ h a.personaVector) := by
  simp only [scoreText, getHiddenState, lastLayerLastToken, pyIdx_neg_one]
  cases (a.hiddenStates text).getLast? with
  | none => rfl
  | some layer => cases layer.getLast? <;> rfl

/-- C7: with steering strength 0 the generated output does not depend on the
persona vector or on the direction string, and coincides with plain unsteered
greedy generation. -/
theorem steering_strength_zero_output_independent {d : Nat} (m : SteerLM d)
    (prompt : String) (maxNewTokens : Nat) (pv₁ pv₂ : Fin d → ℚ) (dir₁ dir₂ : String) :
    (generateWithSteering m pv₁ prompt maxNewTokens 0 dir₁).generated_text
        = (generateWithSteering m pv₂ prompt maxNewTokens 0 dir₂).generated_text ∧
    (generateWithSteering m pv₁ prompt maxNewTokens 0 dir₁).full_output
        = (generateWithSteering m pv₂ prompt maxNewTokens 0 dir₂).full_output ∧
    (generateWithSteering m pv₁ prompt maxNewTokens 0 dir₁).tokens_generated
        = (generateWithSteering m pv₂ prompt maxNewTokens 0 dir₂).tokens_generated ∧
    (generateWithSteering m pv₁ prompt maxNewTokens 0 dir₁).generated_text
        = m.decode (plainGreedyLoop m maxNewTokens (m.encode prompt)) := by
  simp [generateWithSteering, generatedTokens, steerLoop_zero_strength]

/-- C8: the steering generation loop always terminates with at most
`max_new_tokens` generated tokens, and no token before the last one equals
the end-of-sequence token (the loop stops as soon as it is chosen). -/
theorem steering_loop_terminates_and_bounded {d : Nat} (m : SteerLM d) (pv : Fin d → ℚ)
    (prompt : String) (maxNewTokens : Nat) (strength : ℚ) (dirn : String) :
    (generateWithSteering m pv prompt maxNewTokens strength dirn).tokens_generated
        = (generatedTokens m pv prompt maxNewTokens strength dirn).length ∧
    (generateWithSteering m pv prompt maxNewTokens strength dirn).tokens_generated
        ≤ maxNewTokens ∧
    ∀ i : Nat, i + 1 < (generatedTokens m pv prompt maxNewTokens strength dirn).length →
      (generatedTokens m pv prompt maxNewTokens strength dirn).getD i 0 ≠ m.eosTokenId := by
  refine ⟨rfl, ?_, ?_⟩
  · exact steerLoop_length_le m pv strength dirn maxNewTokens (m.encode prompt)
  · exact steerLoop_no_eos_before_last m pv strength dirn maxNewTokens (m.encode prompt)

/-- C10: every direction string other than the exact "reduce" is treated as
"amplify" (the scaled persona vector is added to the hidden state), with no
validation error raised. -/
theorem nonreduce_direction_treated_as_amplify {d : Nat} (m : SteerLM d) (pv : Fin d → ℚ)
    (prompt : String) (maxNewTokens : Nat) (strength : ℚ) (dirn : String)
    (hd : dirn ≠ "reduce") :
    (∀ h : Fin d → ℚ, steeredHidden pv strength dirn h = fun i => h i + strength * pv i) ∧
    generatedTokens m pv prompt maxNewTokens strength dirn
        = generatedTokens m pv prompt maxNewTokens strength "amplify" ∧
    (generateWithSteering m pv prompt maxNewTokens strength dirn).generated_text
        = (generateWithSteering m pv prompt maxNewTokens strength "amplify").generated_text := by
  refine ⟨fun h => steeredHidden_nonreduce pv strength dirn hd h, ?_, ?_⟩
  · exact steerLoop_nonreduce m pv strength dirn hd maxNewTokens (m.encode prompt)
  · simp only [generateWithSteering, generatedTokens,
      steerLoop_nonreduce m pv strength dirn hd]

/-- Witness for C10 at a concrete misspelled direction string. -/
theorem nonreduce_direction_treated_as_amplify_witness :
    steeredHidden (fun _ => (2 : ℚ)) 1 "reducee" (fun _ : Fin 1 => (5 : ℚ))
        = (fun i : Fin 1 => (fun _ : Fin 1 => (5 : ℚ)) i + 1 * (fun _ : Fin 1 => (2 : ℚ)) i) ∧
    generatedTokens demoSteerLM (fun _ => (2 : ℚ)) "p" 3 1 "reducee"
        = generatedTokens demoSteerLM (fun _ => (2 : ℚ)) "p" 3 1 "amplify" := by
  have h := nonreduce_direction_treated_as_amplify demoSteerLM (fun _ => (2 : ℚ))
    "p" 3 1 "reducee" (by decide)
  exact ⟨h.1 (fun _ => (5 : ℚ)), h.2.1⟩

theorem buildQuestionLoop_all_some {d : Nat} (m : CoreModel d) (li : Int)
    (posSys negSys : String) :
    ∀ qs : List String,
      (∀ q ∈ qs, (captureHiddenStates m posSys q li).isSome = true ∧
        (captureHiddenStates m negSys q li).isSome = true) →
      buildQuestionLoop m li posSys negSys qs
        = (.ok (qs.map (fun q => (captureHiddenStates m posSys q li).getD 0),
                qs.map (fun q => (captureHiddenStates m negSys q li).getD 0)),
           qs.flatMap (fun q => [⟨true, q⟩, ⟨false, q⟩])) := by
  intro qs
  induction qs with
  | nil => intro h; rfl
  | cons q rest ih =>
    intro h
    obtain ⟨hp, hn⟩ := h q (List.mem_cons_self q rest)
    obtain ⟨vp, hvp⟩ := Option.isSome_iff_exists.mp hp
    obtain ⟨vn, hvn⟩ := Option.isSome_iff_exists.mp hn
    have hrest := ih (fun q' hq' => h q' (List.mem_cons_of_mem q hq'))
    simp [buildQuestionLoop, hvp, hvn, hrest]

theorem pairTrace_countP_pos (qs : List String) :
    ((qs.flatMap (fun q => [(⟨true, q⟩ : ExtractEvent), ⟨false, q⟩])).countP
      (fun e => e.positive)) = qs.length := by
  induction qs with
  | nil => rfl
  | cons q rest ih => simp [List.countP_cons, ih]

theorem pairTrace_countP_neg (qs : List String) :
    ((qs.flatMap (fun q => [(⟨true, q⟩ : ExtractEvent), ⟨false, q⟩])).countP
      (fun e => !e.positive)) = qs.length := by
  induction qs with
  | nil => rfl
  | cons q rest ih => simp [List.countP_cons, ih]

theorem buildRawDirectionTraced_all_some {d : Nat} (m : CoreModel d) (trait : TraitConfig)
    (hN : 0 < trait.probe_questions.length)
    (hcap : ∀ q ∈ trait.probe_questions,
      (captureHiddenStates m
        (formatSystemPrompt trait.positive_prompt_template trait.description)
        q trait.layer_index).isSome = true ∧
      (captureHiddenStates m
        (formatSystemPrompt trait.negative_prompt_template trait.description)
        q trait.layer_index).isSome = true) :
    buildRawDirectionTraced m trait
      = (.ok (fun i =>
            vmean (trait.probe_questions.map (fun q => (captureHiddenStates m
              (formatSystemPrompt trait.positive_prompt_template trait.description)
              q trait.layer_index).getD 0)) i
            - vmean (trait.probe_questions.map (fun q => (captureHiddenStates m
              (formatSystemPrompt trait.negative_prompt_template trait.description)
              q trait.layer_index).getD 0)) i),
         trait.probe_questions.flatMap (fun q => [⟨true, q⟩, ⟨false, q⟩])) := by
  have hne : (trait.probe_questions.map (fun q => (captureHiddenStates m
      (formatSystemPrompt trait.positive_prompt_template trait.description)
      q trait.layer_index).getD 0)).isEmpty = false := by
    rw [List.isEmpty_eq_false]
    simp only [ne_eq, List.map_eq_nil_iff]
    exact List.ne_nil_of_length_pos hN
  simp [buildRawDirectionTraced, buildPromptPairs, buildPairsLoop,
    buildQuestionLoop_all_some m trait.layer_index _ _ trait.probe_questions hcap, hne]

/-- C1: for a trait with N probe questions the builder performs exactly N
positive-framing and N negative-framing extractions, one pair per probe
question in configured order, and returns the difference of the elementwise
means divided by its L2 norm plus 1e-8. -/
theorem build_persona_vector_extractions_and_normalization {d : Nat} (sqrtFn : ℚ → ℚ)
    (m : CoreModel d) (trait : TraitConfig)
    (hN : 0 < trait.probe_questions.length)
    (hcap : ∀ q ∈ trait.probe_questions,
      (captureHiddenStates m
        (formatSystemPrompt trait.positive_prompt_template trait.description)
        q trait.layer_index).isSome = true ∧
      (captureHiddenStates m
        (formatSystemPrompt trait.negative_prompt_template trait.description)
        q trait.layer_index).isSome = true) :
    buildTrace m trait
        = trait.probe_questions.flatMap (fun q => [⟨true, q⟩, ⟨false, q⟩]) ∧
    (buildTrace m trait).countP (fun e => e.positive) = trait.probe_questions.length ∧
    (buildTrace m trait).countP (fun e => !e.positive) = trait.probe_questions.length ∧
    buildPersonaVector sqrtFn m trait
        = .ok (normalizeStep sqrtFn (fun i =>
            vmean (trait.probe_questions.map (fun q => (captureHiddenStates m
              (formatSystemPrompt trait.positive_prompt_template trait.description)
              q trait.layer_index).getD 0)) i
            - vmean (trait.probe_questions.map (fun q => (captureHiddenStates m
              (formatSystemPrompt trait.negative_prompt_template trait.description)
              q trait.layer_index).getD 0)) i)) := by
  have h := buildRawDirectionTraced_all_some m trait hN hcap
  refine ⟨?_, ?_, ?_, ?_⟩
  · rw [buildTrace, h]
  · rw [buildTrace, h]; exact pairTrace_countP_pos trait.probe_questions
  · rw [buildTrace, h]; exact pairTrace_countP_neg trait.probe_questions
  · rw [buildPersonaVector, buildRawDirection, h]; rfl

/-- Witness for C1 at a concrete one-question trait and constant model. -/
theorem build_persona_vector_extractions_witness :
    buildTrace onesCoreModel demoTrait
        = demoTrait.probe_questions.flatMap (fun q => [⟨true, q⟩, ⟨false, q⟩]) ∧
    (buildTrace onesCoreModel demoTrait).countP (fun e => e.positive)
        = demoTrait.probe_questions.length ∧
    buildPersonaVector (fun q => q) onesCoreModel demoTrait
        = .ok (normalizeStep (fun q => q) (fun i =>
            vmean (demoTrait.probe_questions.map (fun q => (captureHiddenStates onesCoreModel
              (formatSystemPrompt demoTrait.positive_prompt_template demoTrait.description)
              q demoTrait.layer_index).getD 0)) i
            - vmean (demoTrait.probe_questions.map (fun q => (captureHiddenStates onesCoreModel
              (formatSystemPrompt demoTrait.negative_prompt_template demoTrait.description)
              q demoTrait.layer_index).getD 0)) i)) := by
  have h := build_persona_vector_extractions_and_normalization (fun q => q)
    onesCoreModel demoTrait (by decide) (by decide)
  exact ⟨h.1, h.2.1, h.2.2.2⟩

theorem buildRawDirection_tinyDiff :
    buildRawDirection tinyDiffModel lenDiffTrait = .ok (fun _ => 1 / 50000000) := by
  rw [buildRawDirection, buildRawDirectionTraced_all_some _ _ (by decide) (by decide)]
  dsimp only
  congr 1
  funext i
  have e1 : formatSystemPrompt "PP" "D" = "PP" := by decide
  have e2 : formatSystemPrompt "" "D" = "" := by decide
  have c1 : capturePromptText "PP" "q" = "PP\n\nUser: q\nAssistant:" := by decide
  have c2 : capturePromptText "" "q" = "\n\nUser: q\nAssistant:" := by decide
  have l1 : ("PP\n\nUser: q\nAssistant:").length = 22 := by decide
  have l2 : ("\n\nUser: q\nAssistant:").length = 20 := by decide
  norm_num [vmean, lenDiffTrait, tinyDiffModel, e1, e2, c1, c2, l1, l2,
    captureHiddenStates, pyIdx]

theorem buildRawDirection_smallDiff :
    buildRawDirection smallDiffModel lenDiffTrait = .ok (fun _ => 1 / 5000) := by
  rw [buildRawDirection, buildRawDirectionTraced_all_some _ _ (by decide) (by decide)]
  dsimp only
  congr 1
  funext i
  have e1 : formatSystemPrompt "PP" "D" = "PP" := by decide
  have e2 : formatSystemPrompt "" "D" = "" := by decide
  have c1 : capturePromptText "PP" "q" = "PP\n\nUser: q\nAssistant:" := by decide
  have c2 : capturePromptText "" "q" = "\n\nUser: q\nAssistant:" := by decide
  have l1 : ("PP\n\nUser: q\nAssistant:").length = 22 := by decide
  have l2 : ("\n\nUser: q\nAssistant:").length = 20 := by decide
  norm_num [vmean, lenDiffTrait, smallDiffModel, e1, e2, c1, c2, l1, l2,
    captureHiddenStates, pyIdx]

/-- Counterexample to C2 as stated: a raw difference vector of norm 2e-8 is
not within epsilon (1e-8) of the zero vector, the square-root model is exact
and nonnegative at every point reached, yet the persona vector produced by
`build_persona_vector` has L2 norm 2/3, off from 1.0 by far more than 0.01. -/
theorem persona_vector_norm_near_eps_counterexample :
    buildRawDirection tinyDiffModel lenDiffTrait = .ok (fun _ => 1 / 50000000) ∧
    (1 : ℚ) / 100000000 < l2norm tinySqrt (fun _ : Fin 1 => (1 : ℚ) / 50000000) ∧
    0 ≤ l2norm tinySqrt (fun _ : Fin 1 => (1 : ℚ) / 50000000) ∧
    l2norm tinySqrt (fun _ : Fin 1 => (1 : ℚ) / 50000000) ^ 2
        = sumSq (fun _ : Fin 1 => (1 : ℚ) / 50000000) ∧
    buildPersonaVector tinySqrt tinyDiffModel lenDiffTrait = .ok (fun _ => 2 / 3) ∧
    0 ≤ l2norm tinySqrt (fun _ : Fin 1 => (2 : ℚ) / 3) ∧
    l2norm tinySqrt (fun _ : Fin 1 => (2 : ℚ) / 3) ^ 2
        = sumSq (fun _ : Fin 1 => (2 : ℚ) / 3) ∧
    1 / 100 < |l2norm tinySqrt (fun _ : Fin 1 => (2 : ℚ) / 3) - 1| := by
  have hl1 : l2norm tinySqrt (fun _ : Fin 1 => (1 : ℚ) / 50000000) = 1 / 50000000 := by
    norm_num [l2norm, sumSq, Fin.sum_univ_one, tinySqrt]
  have hl2 : l2norm tinySqrt (fun _ : Fin 1 => (2 : ℚ) / 3) = 2 / 3 := by
    norm_num [l2norm, sumSq, Fin.sum_univ_one, tinySqrt]
  refine ⟨buildRawDirection_tinyDiff, ?_, ?_, ?_, ?_, ?_, ?_, ?_⟩
  · rw [hl1]; norm_num
  · rw [hl1]; norm_num
  · rw [hl1]; norm_num [sumSq, Fin.sum_univ_one]
  · rw [buildPersonaVector, buildRawDirection_tinyDiff]
    simp only [Except.map]
    congr 1
    funext i
    norm_num [normalizeStep, l2norm, sumSq, Fin.sum_univ_one, tinySqrt,
      show (1e-8 : ℚ) = 1 / 100000000 from by norm_num]
  · rw [hl2]; norm_num
  · rw [hl2]; norm_num [sumSq, Fin.sum_univ_one]
  · rw [hl2, show ((2 : ℚ) / 3 - 1) = -(1 / 3) from by norm_num, abs_neg,
      abs_of_nonneg (by norm_num : (0 : ℚ) ≤ 1 / 3)]
    norm_num

/-- C2 (amended): the claim holds once "not within epsilon of zero" is
strengthened to a norm of at least 1e-6 (for norms between 1e-8 and 99e-8 the
normalization denominator `norm + 1e-8` distorts the result by more than the
0.01 tolerance): whenever the raw difference vector's norm is at least 1e-6
and the square-root model is exact and nonnegative at the two points reached,
the persona vector's L2 norm is within 0.01 of 1.0. -/
theorem persona_vector_norm_unit_above_threshold {d : Nat} (sqrtFn : ℚ → ℚ)
    (m : CoreModel d) (trait : TraitConfig) (dir : Fin d → ℚ)
    (hdir : buildRawDirection m trait = .ok dir)
    (h1n : 0 ≤ l2norm sqrtFn dir)
    (h1s : l2norm sqrtFn dir ^ 2 = sumSq dir)
    (hbig : 1 / 1000000 ≤ l2norm sqrtFn dir)
    (h2n : 0 ≤ l2norm sqrtFn (normalizeStep sqrtFn dir))
    (h2s : l2norm sqrtFn (normalizeStep sqrtFn dir) ^ 2
        = sumSq (normalizeStep sqrtFn dir)) :
    buildPersonaVector sqrtFn m trait = .ok (normalizeStep sqrtFn dir) ∧
    |l2norm sqrtFn (normalizeStep sqrtFn dir) - 1| ≤ 1 / 100 := by
  constructor
  · rw [buildPersonaVector, hdir]; rfl
  · set n := l2norm sqrtFn dir with hn
    set w := l2norm sqrtFn (normalizeStep sqrtFn dir) with hw
    have he : (1e-8 : ℚ) = 1 / 100000000 := by norm_num
    have hn0 : (0 : ℚ) < n := lt_of_lt_of_le (by norm_num) hbig
    have hden : (0 : ℚ) < n + 1e-8 := by rw [he]; linarith
    have hssq : sumSq (normalizeStep sqrtFn dir) = sumSq dir / (n + 1e-8) ^ 2 := by
      have hrw : normalizeStep sqrtFn dir = fun i => dir i / (n + 1e-8) := rfl
      rw [hrw]
      simp only [sumSq, div_pow, ← Finset.sum_div]
    have hw2 : w ^ 2 = (n / (n + 1e-8)) ^ 2 := by
      rw [h2s, hssq, ← h1s, div_pow]
    have hzero : (w - n / (n + 1e-8)) * (w + n / (n + 1e-8)) = 0 := by
      linear_combination hw2
    have hcnn : 0 ≤ n / (n + 1e-8) := le_of_lt (div_pos hn0 hden)
    have hweq : w = n / (n + 1e-8) := by
      rcases mul_eq_zero.mp hzero with h0 | h0
      · linarith
      · have : w = -(n / (n + 1e-8)) := by linarith
        have hpos : 0 < n / (n + 1e-8) := div_pos hn0 hden
        linarith
    have hc1 : n / (n + 1e-8) ≤ 1 := by
      rw [div_le_one hden, he]; linarith
    have hc2 : 99 / 100 ≤ n / (n + 1e-8) := by
      rw [le_div_iff₀ hden, he]
      linarith
    rw [hweq, abs_of_nonpos (by linarith)]
    linarith

/-- Witness for the amended C2 at a concrete input with raw norm 2e-4. -/
theorem persona_vector_norm_unit_above_threshold_witness :
    buildPersonaVector smallSqrt smallDiffModel lenDiffTrait
        = .ok (normalizeStep smallSqrt (fun _ : Fin 1 => (1 : ℚ) / 5000)) ∧
    |l2norm smallSqrt (normalizeStep smallSqrt (fun _ : Fin 1 => (1 : ℚ) / 5000)) - 1|
        ≤ 1 / 100 := by
  have he : (1e-8 : ℚ) = 1 / 100000000 := by norm_num
  have hl1 : l2norm smallSqrt (fun _ : Fin 1 => (1 : ℚ) / 5000) = 1 / 5000 := by
    norm_num [l2norm, sumSq, Fin.sum_univ_one, smallSqrt]
  have hns : normalizeStep smallSqrt (fun _ : Fin 1 => (1 : ℚ) / 5000)
      = fun _ => 20000 / 20001 := by
    funext i
    norm_num [normalizeStep, hl1, he]
  have hl2 : l2norm smallSqrt (normalizeStep smallSqrt (fun _ : Fin 1 => (1 : ℚ) / 5000))
      = 20000 / 20001 := by
    rw [hns]
    norm_num [l2norm, sumSq, Fin.sum_univ_one, smallSqrt]
  exact persona_vector_norm_unit_above_threshold smallSqrt smallDiffModel lenDiffTrait
    (fun _ => 1 / 5000) buildRawDirection_smallDiff
    (by rw [hl1]; norm_num)
    (by rw [hl1]; norm_num [sumSq, Fin.sum_univ_one])
    (by rw [hl1]; norm_num)
    (by rw [hl2]; norm_num)
    (by rw [hl2, hns]; norm_num [sumSq, Fin.sum_univ_one])

theorem tensorMin_ne_nil (l : List ℚ) (h : l ≠ []) :
    tensorMin l = .ok ((sortScores l).getD 0 0) := by
  cases l with
  | nil => exact absurd rfl h
  | cons x xs => rfl

theorem tensorMax_ne_nil (l : List ℚ) (h : l ≠ []) :
    tensorMax l = .ok ((sortScores l).getD (l.length - 1) 0) := by
  cases l with
  | nil => exact absurd rfl h
  | cons x xs => rfl

theorem tensorMedian_ne_nil (l : List ℚ) (h : l ≠ []) :
    tensorMedian l = .ok ((sortScores l).getD ((l.length - 1) / 2) 0) := by
  cases l with
  | nil => exact absurd rfl h
  | cons x xs => rfl

theorem tensorQuantile_ne_nil (l : List ℚ) (q : ℚ) (h : l ≠ []) :
    tensorQuantile l q = .ok (quantileVal l q) := by
  cases l with
  | nil => exact absurd rfl h
  | cons x xs => rfl

theorem analyzeDatasetFile_ok_exists {d : Nat} (a : Analyzer d) (sqrtFn : ℚ → ℚ)
    (lines : List (Except String JsonVal)) (traitName : String)
    (hne : scoredPairs a lines ≠ []) :
    ∃ r, analyzeDatasetFile a sqrtFn lines traitName = .ok r := by
  have hsne : (scoredPairs a lines).map Prod.snd ≠ [] := by
    simpa [ne_eq, List.map_eq_nil_iff] using hne
  simp only [analyzeDatasetFile]
  rw [tensorMin_ne_nil _ hsne, exceptBind_ok, tensorMax_ne_nil _ hsne, exceptBind_ok,
    tensorMedian_ne_nil _ hsne, exceptBind_ok, tensorQuantile_ne_nil _ _ hsne,
    exceptBind_ok, tensorQuantile_ne_nil _ _ hsne, exceptBind_ok]
  exact ⟨_, rfl⟩

theorem analyzeDatasetFile_ok_inv {d : Nat} {a : Analyzer d} {sqrtFn : ℚ → ℚ}
    {lines : List (Except String JsonVal)} {traitName : String} {r : AnalysisResult}
    (hok : analyzeDatasetFile a sqrtFn lines traitName = .ok r) :
    r.total_examples = (scoredPairs a lines).length ∧
    tensorMin ((scoredPairs a lines).map Prod.snd) = .ok r.min_score ∧
    tensorMax ((scoredPairs a lines).map Prod.snd) = .ok r.max_score ∧
    tensorMedian ((scoredPairs a lines).map Prod.snd) = .ok r.median_score ∧
    tensorQuantile ((scoredPairs a lines).map Prod.snd) (9 / 10) = .ok r.percentile_90 ∧
    tensorQuantile ((scoredPairs a lines).map Prod.snd) (1 / 10) = .ok r.percentile_10 := by
  simp only [analyzeDatasetFile] at hok
  cases h1 : tensorMin ((scoredPairs a lines).map Prod.snd) with
  | error e => rw [h1, exceptBind_error] at hok; exact absurd hok (by simp)
  | ok mn =>
  rw [h1, exceptBind_ok] at hok
  cases h2 : tensorMax ((scoredPairs a lines).map Prod.snd) with
  | error e => rw [h2, exceptBind_error] at hok; exact absurd hok (by simp)
  | ok mx =>
  rw [h2, exceptBind_ok] at hok
  cases h3 : tensorMedian ((scoredPairs a lines).map Prod.snd) with
  | error e => rw [h3, exceptBind_error] at hok; exact absurd hok (by simp)
  | ok med =>
  rw [h3, exceptBind_ok] at hok
  cases h4 : tensorQuantile ((scoredPairs a lines).map Prod.snd) (9 / 10) with
  | error e => rw [h4, exceptBind_error] at hok; exact absurd hok (by simp)
  | ok p90 =>
  rw [h4, exceptBind_ok] at hok
  cases h5 : tensorQuantile ((scoredPairs a lines).map Prod.snd) (1 / 10) with
  | error e => rw [h5, exceptBind_error] at hok; exact absurd hok (by simp)
  | ok p10 =>
  rw [h5, exceptBind_ok] at hok
  rw [show ∀ x : AnalysisResult, (pure x : Except String AnalysisResult) = .ok x
    from fun _ => rfl] at hok
  cases hok
  refine ⟨by simp, rfl, rfl, rfl, rfl, rfl⟩

theorem processLine_partition {d : Nat} (a : Analyzer d)
    (lines : List (Except String JsonVal)) :
    skippedLogCount a lines + ignoredCount a lines + (scoredPairs a lines).length
      = lines.length := by
  induction lines with
  | nil => rfl
  | cons line rest ih =>
    simp only [skippedLogCount, ignoredCount, scoredPairs, List.countP_cons,
      List.filterMap_cons, List.length_cons] at ih ⊢
    cases h : processLine a line <;> simp [h] <;> omega

theorem scoredPairs_fourLineDataset :
    scoredPairs lenAnalyzer fourLineDataset = [("a", 1), ("bb", 2), ("ccc", 3)] := by
  have s1 := processLine_single_text lenAnalyzer "a" 1 (by decide) (by decide)
    (by rw [lenAnalyzer_score]; norm_num [show "a".length = 1 from by decide])
  have s2 := processLine_single_text lenAnalyzer "bb" 2 (by decide) (by decide)
    (by rw [lenAnalyzer_score]; norm_num [show "bb".length = 2 from by decide])
  have s3 := processLine_single_text lenAnalyzer "ccc" 3 (by decide) (by decide)
    (by rw [lenAnalyzer_score]; norm_num [show "ccc".length = 3 from by decide])
  simp only [scoredPairs, fourLineDataset, List.filterMap_cons, List.filterMap_nil,
    s1, s2, s3, processLine_error_line]

theorem scoredPairs_twoRecordLines :
    scoredPairs lenAnalyzer twoRecordLines = [("a", 1), ("bb", 2)] := by
  have s1 := processLine_single_text lenAnalyzer "a" 1 (by decide) (by decide)
    (by rw [lenAnalyzer_score]; norm_num [show "a".length = 1 from by decide])
  have s2 := processLine_single_text lenAnalyzer "bb" 2 (by decide) (by decide)
    (by rw [lenAnalyzer_score]; norm_num [show "bb".length = 2 from by decide])
  simp only [scoredPairs, twoRecordLines, List.filterMap_cons, List.filterMap_nil, s1, s2]

set_option maxRecDepth 8000 in
theorem analyzeDatasetFile_fourLine :
    analyzeDatasetFile lenAnalyzer (fun q => q) fourLineDataset "sycophancy"
      = .ok fourLineStats := by
  have hmn : tensorMin [(1 : ℚ), 2, 3] = .ok 1 := by
    norm_num [tensorMin, sortScores, List.insertionSort, List.orderedInsert]
  have hmx : tensorMax [(1 : ℚ), 2, 3] = .ok 3 := by
    norm_num [tensorMax, sortScores, List.insertionSort, List.orderedInsert]
  have hmed : tensorMedian [(1 : ℚ), 2, 3] = .ok 2 := by
    norm_num [tensorMedian, sortScores, List.insertionSort, List.orderedInsert]
  have h90 : tensorQuantile [(1 : ℚ), 2, 3] (9 / 10) = .ok (14 / 5) := by
    norm_num [tensorQuantile, quantileVal, sortScores, List.insertionSort,
      List.orderedInsert, Int.floor_eq_iff]
  have h10 : tensorQuantile [(1 : ℚ), 2, 3] (1 / 10) = .ok (6 / 5) := by
    norm_num [tensorQuantile, quantileVal, sortScores, List.insertionSort,
      List.orderedInsert, Int.floor_eq_iff]
  rw [analyzeDatasetFile, scoredPairs_fourLineDataset]
  norm_num [hmn, hmx, hmed, h90, h10, exceptBind_ok, List.filter, fourLineStats,
    show ("a".take 100) = "a" from by decide,
    show ("bb".take 100) = "bb" from by decide,
    show ("ccc".take 100) = "ccc" from by decide,
    show (decide ((14 : ℚ) / 5 ≤ 1)) = false from by norm_num,
    show (decide ((14 : ℚ) / 5 ≤ 2)) = false from by norm_num,
    show (decide ((14 : ℚ) / 5 ≤ 3)) = true from by norm_num,
    show (decide ((1 : ℚ) ≤ 6 / 5)) = true from by norm_num,
    show (decide ((2 : ℚ) ≤ 6 / 5)) = false from by norm_num,
    show (decide ((3 : ℚ) ≤ 6 / 5)) = false from by norm_num]

set_option maxRecDepth 8000 in
theorem analyzeDatasetFile_twoRecord :
    analyzeDatasetFile lenAnalyzer (fun q => q) twoRecordLines "sycophancy"
      = .ok twoRecordStats := by
  have hmn : tensorMin [(1 : ℚ), 2] = .ok 1 := by
    norm_num [tensorMin, sortScores, List.insertionSort, List.orderedInsert]
  have hmx : tensorMax [(1 : ℚ), 2] = .ok 2 := by
    norm_num [tensorMax, sortScores, List.insertionSort, List.orderedInsert]
  have hmed : tensorMedian [(1 : ℚ), 2] = .ok 1 := by
    norm_num [tensorMedian, sortScores, List.insertionSort, List.orderedInsert]
  have h90 : tensorQuantile [(1 : ℚ), 2] (9 / 10) = .ok (19 / 10) := by
    norm_num [tensorQuantile, quantileVal, sortScores, List.insertionSort,
      List.orderedInsert, Int.floor_eq_iff]
  have h10 : tensorQuantile [(1 : ℚ), 2] (1 / 10) = .ok (11 / 10) := by
    norm_num [tensorQuantile, quantileVal, sortScores, List.insertionSort,
      List.orderedInsert, Int.floor_eq_iff]
  rw [analyzeDatasetFile, scoredPairs_twoRecordLines]
  norm_num [hmn, hmx, hmed, h90, h10, exceptBind_ok, List.filter, twoRecordStats,
    show ("a".take 100) = "a" from by decide,
    show ("bb".take 100) = "bb" from by decide,
    show (decide ((19 : ℚ) / 10 ≤ 1)) = false from by norm_num,
    show (decide ((19 : ℚ) / 10 ≤ 2)) = true from by norm_num,
    show (decide ((1 : ℚ) ≤ 11 / 10)) = true from by norm_num,
    show (decide ((2 : ℚ) ≤ 11 / 10)) = false from by norm_num]

/-- C4 (code bug): on a two-record dataset with scores 1 and 2, the reported
`high_trait_examples` are the first stored examples, not the examples with
score at or above the 90th percentile: the example with score 1 is reported
as a high-trait example although its score 1 lies strictly below
`percentile_90 = 19/10` (indeed at or below `percentile_10 = 11/10`),
contradicting the bucketing the code's own comments and report header
announce. -/
theorem high_trait_examples_not_filtered_bug :
    analyzeDatasetFile lenAnalyzer (fun q => q) twoRecordLines "sycophancy"
        = .ok twoRecordStats ∧
    twoRecordStats.high_trait_examples = [⟨"a", 1⟩, ⟨"bb", 2⟩, ⟨"bb", 2⟩] ∧
    twoRecordStats.percentile_90 = 19 / 10 ∧
    twoRecordStats.percentile_10 = 11 / 10 ∧
    (⟨"a", 1⟩ : ExampleEntry) ∈ twoRecordStats.high_trait_examples ∧
    (1 : ℚ) < twoRecordStats.percentile_90 ∧
    (1 : ℚ) ≤ twoRecordStats.percentile_10 := by
  refine ⟨analyzeDatasetFile_twoRecord, rfl, rfl, rfl, ?_, ?_, ?_⟩
  · simp [twoRecordStats]
  · norm_num [twoRecordStats]
  · norm_num [twoRecordStats]

/-- Counterexample to C5 as stated: a record whose `text` field holds the
number 5 resolves to a non-string text value and is skipped (not scored),
but no "Skipping line" message is logged for it, contrary to the claim that
such records are "skipped and logged". -/
theorem nonstring_text_skipped_without_log_counterexample :
    resolveText [("text", JsonVal.jnum 5)] = .jnum 5 ∧
    resolvedTextIsString [("text", JsonVal.jnum 5)] = false ∧
    processLine lenAnalyzer numberTextLine = .ignored ∧
    scoredPairs lenAnalyzer [numberTextLine] = [] ∧
    skippedLogCount lenAnalyzer [numberTextLine] = 0 := by
  exact ⟨rfl, rfl, rfl, rfl, rfl⟩

/-- C5 (amended): records that fail to parse (or do not support field access)
are skipped and logged without aborting the run; records whose resolved text
value is not a string are skipped silently (without logging); every line is
scored, logged-skipped, or silently ignored; and the reported total_examples
counts exactly the successfully scored records. -/
theorem dataset_skip_accounting {d : Nat} (a : Analyzer d) (sqrtFn : ℚ → ℚ)
    (lines : List (Except String JsonVal)) (traitName : String) (r : AnalysisResult)
    (hok : analyzeDatasetFile a sqrtFn lines traitName = .ok r) :
    r.total_examples = (scoredPairs a lines).length ∧
    skippedLogCount a lines + ignoredCount a lines + (scoredPairs a lines).length
        = lines.length ∧
    (∀ line ∈ lines, lineFailsParse line = true → processLine a line = .skippedLogged) ∧
    (∀ fields : List (String × JsonVal), resolvedTextIsString fields = false →
      processLine a (.ok (.jobj fields)) = .ignored) := by
  refine ⟨(analyzeDatasetFile_ok_inv hok).1, processLine_partition a lines, ?_, ?_⟩
  · intro line _ hfail
    cases line with
    | error e => rfl
    | ok v => cases v <;> simp_all [lineFailsParse, processLine]
  · intro fields hns
    simp only [resolvedTextIsString] at hns
    simp only [processLine]
    cases hr : resolveText fields with
    | jstr s => rw [hr] at hns; simp at hns
    | jnull => rfl
    | jbool b => rfl
    | jnum q => rfl
    | jarr elems => rfl
    | jobj fs => rfl

/-- Witness for the amended C5 on the four-line dataset: three records are
scored, the malformed line is skipped and logged, and the counts add up. -/
theorem dataset_skip_accounting_witness :
    fourLineStats.total_examples = (scoredPairs lenAnalyzer fourLineDataset).length ∧
    skippedLogCount lenAnalyzer fourLineDataset + ignoredCount lenAnalyzer fourLineDataset
        + (scoredPairs lenAnalyzer fourLineDataset).length = fourLineDataset.length := by
  have h := dataset_skip_accounting lenAnalyzer (fun q => q) fourLineDataset
    "sycophancy" fourLineStats analyzeDatasetFile_fourLine
  exact ⟨h.1, h.2.1⟩

theorem sortScores_sorted (l : List ℚ) : List.Sorted (· ≤ ·) (sortScores l) :=
  List.sorted_insertionSort (· ≤ ·) l

theorem sortScores_length (l : List ℚ) : (sortScores l).length = l.length :=
  (List.perm_insertionSort (· ≤ ·) l).length_eq

theorem sorted_getD_mono (s : List ℚ) (hs : List.Sorted (· ≤ ·) s) (i j : Nat)
    (hij : i ≤ j) (hj : j < s.length) : s.getD i 0 ≤ s.getD j 0 := by
  have hi : i < s.length := lt_of_le_of_lt hij hj
  have h := hs.rel_get_of_le (show (⟨i, hi⟩ : Fin s.length) ≤ ⟨j, hj⟩ from hij)
  simpa [List.getD_eq_getElem, hi, hj] using h

theorem quantileVal_between (l : List ℚ) (hl : l ≠ []) (q : ℚ)
    (h0 : 0 ≤ q) (h1 : q ≤ 1) :
    (sortScores l).getD ((⌊q * ((l.length : ℚ) - 1)⌋).toNat) 0 ≤ quantileVal l q ∧
    quantileVal l q
      ≤ (sortScores l).getD
          (min ((⌊q * ((l.length : ℚ) - 1)⌋).toNat + 1) (l.length - 1)) 0 := by
  have hn : 0 < l.length := List.length_pos.mpr hl
  have hcast : (0 : ℚ) ≤ (l.length : ℚ) - 1 := by
    have : (1 : ℚ) ≤ (l.length : ℚ) := by exact_mod_cast hn
    linarith
  set p : ℚ := q * ((l.length : ℚ) - 1) with hp
  have hpnn : 0 ≤ p := mul_nonneg h0 hcast
  have hple : p ≤ (l.length : ℚ) - 1 := by
    calc p ≤ 1 * ((l.length : ℚ) - 1) := mul_le_mul_of_nonneg_right h1 hcast
    _ = (l.length : ℚ) - 1 := one_mul _
  set i : Nat := (⌊p⌋).toNat with hi
  have hfl : (0 : Int) ≤ ⌊p⌋ := Int.floor_nonneg.mpr hpnn
  have hiq : ((i : ℚ)) = ((⌊p⌋ : Int) : ℚ) := by exact_mod_cast Int.toNat_of_nonneg hfl
  have hf1 : ((i : ℚ)) ≤ p := by rw [hiq]; exact Int.floor_le p
  have hf2 : p < (i : ℚ) + 1 := by rw [hiq]; exact_mod_cast Int.lt_floor_add_one p
  have hile : i ≤ l.length - 1 := by
    have hc : (i : ℚ) ≤ (l.length : ℚ) - 1 := le_trans hf1 hple
    have hsub : ((l.length - 1 : Nat) : ℚ) = (l.length : ℚ) - 1 := by
      exact_mod_cast Nat.cast_sub hn
    rw [← hsub] at hc
    exact_mod_cast hc
  have hjlt : min (i + 1) (l.length - 1) < (sortScores l).length := by
    rw [sortScores_length]
    have : l.length - 1 < l.length := by omega
    exact lt_of_le_of_lt (min_le_right _ _) this
  have hij : i ≤ min (i + 1) (l.length - 1) := le_min (Nat.le_succ i) hile
  have hlo : (sortScores l).getD i 0 ≤ (sortScores l).getD (min (i + 1) (l.length - 1)) 0 :=
    sorted_getD_mono (sortScores l) (sortScores_sorted l) _ _ hij hjlt
  have hv : quantileVal l q
      = (sortScores l).getD i 0
        + (p - (i : ℚ)) * ((sortScores l).getD (min (i + 1) (l.length - 1)) 0
          - (sortScores l).getD i 0) := rfl
  constructor
  · rw [hv]
    nlinarith [mul_nonneg (by linarith : (0 : ℚ) ≤ p - (i : ℚ))
      (by linarith : (0 : ℚ) ≤ (sortScores l).getD (min (i + 1) (l.length - 1)) 0
        - (sortScores l).getD i 0)]
  · rw [hv]
    nlinarith [mul_nonneg (by linarith : (0 : ℚ) ≤ 1 - (p - (i : ℚ)))
      (by linarith : (0 : ℚ) ≤ (sortScores l).getD (min (i + 1) (l.length - 1)) 0
        - (sortScores l).getD i 0)]

theorem floor_index_le (l : List ℚ) (hl : l ≠ []) (q : ℚ) (h0 : 0 ≤ q) (h1 : q ≤ 1) :
    (⌊q * ((l.length : ℚ) - 1)⌋).toNat ≤ l.length - 1 := by
  have hn : 0 < l.length := List.length_pos.mpr hl
  have hcast : (0 : ℚ) ≤ (l.length : ℚ) - 1 := by
    have : (1 : ℚ) ≤ (l.length : ℚ) := by exact_mod_cast hn
    linarith
  set p : ℚ := q * ((l.length : ℚ) - 1) with hp
  have hpnn : 0 ≤ p := mul_nonneg h0 hcast
  have hple : p ≤ (l.length : ℚ) - 1 := by
    calc p ≤ 1 * ((l.length : ℚ) - 1) := mul_le_mul_of_nonneg_right h1 hcast
    _ = (l.length : ℚ) - 1 := one_mul _
  have hfl : (0 : Int) ≤ ⌊p⌋ := Int.floor_nonneg.mpr hpnn
  have hiq : (((⌊p⌋).toNat : ℚ)) = ((⌊p⌋ : Int) : ℚ) := by
    exact_mod_cast Int.toNat_of_nonneg hfl
  have hc : (((⌊p⌋).toNat : ℚ)) ≤ (l.length : ℚ) - 1 := by
    rw [hiq]
    exact le_trans (Int.floor_le p) hple
  have hsub : ((l.length - 1 : Nat) : ℚ) = (l.length : ℚ) - 1 := by
    exact_mod_cast Nat.cast_sub hn
  rw [← hsub] at hc
  exact_mod_cast hc

theorem quantileVal_mono (l : List ℚ) (hl : l ≠ []) (q1 q2 : ℚ)
    (h0 : 0 ≤ q1) (h12 : q1 ≤ q2) (h21 : q2 ≤ 1) :
    quantileVal l q1 ≤ quantileVal l q2 := by
  have hn : 0 < l.length := List.length_pos.mpr hl
  have hcast : (0 : ℚ) ≤ (l.length : ℚ) - 1 := by
    have : (1 : ℚ) ≤ (l.length : ℚ) := by exact_mod_cast hn
    linarith
  have hple : q1 * ((l.length : ℚ) - 1) ≤ q2 * ((l.length : ℚ) - 1) :=
    mul_le_mul_of_nonneg_right h12 hcast
  have hi12 : (⌊q1 * ((l.length : ℚ) - 1)⌋).toNat ≤ (⌊q2 * ((l.length : ℚ) - 1)⌋).toNat :=
    Int.toNat_le_toNat (Int.floor_le_floor hple)
  obtain ⟨hlo1, hhi1⟩ := quantileVal_between l hl q1 h0 (le_trans h12 h21)
  obtain ⟨hlo2, hhi2⟩ := quantileVal_between l hl q2 (le_trans h0 h12) h21
  have hile1 : (⌊q1 * ((l.length : ℚ) - 1)⌋).toNat ≤ l.length - 1 :=
    floor_index_le l hl q1 h0 (le_trans h12 h21)
  have hile2 : (⌊q2 * ((l.length : ℚ) - 1)⌋).toNat ≤ l.length - 1 :=
    floor_index_le l hl q2 (le_trans h0 h12) h21
  rcases eq_or_lt_of_le hi12 with heq | hlt
  · -- same lower index: directly compare the interpolation formulas
    set i : Nat := (⌊q1 * ((l.length : ℚ) - 1)⌋).toNat with hidef
    have hv1 : quantileVal l q1
        = (sortScores l).getD i 0
          + (q1 * ((l.length : ℚ) - 1) - (i : ℚ))
            * ((sortScores l).getD (min (i + 1) (l.length - 1)) 0
              - (sortScores l).getD i 0) := rfl
    have hv2 : quantileVal l q2
        = (sortScores l).getD i 0
          + (q2 * ((l.length : ℚ) - 1) - (i : ℚ))
            * ((sortScores l).getD (min (i + 1) (l.length - 1)) 0
              - (sortScores l).getD i 0) := by
      rw [heq]; rfl
    have hjlt : min (i + 1) (l.length - 1) < (sortScores l).length := by
      rw [sortScores_length]
      have : l.length - 1 < l.length := by omega
      exact lt_of_le_of_lt (min_le_right _ _) this
    have hlo : (sortScores l).getD i 0
        ≤ (sortScores l).getD (min (i + 1) (l.length - 1)) 0 :=
      sorted_getD_mono (sortScores l) (sortScores_sorted l) _ _
        (le_min (Nat.le_succ i) hile1) hjlt
    rw [hv1, hv2]
    nlinarith [mul_nonneg (by linarith : (0 : ℚ) ≤ q2 * ((l.length : ℚ) - 1)
        - q1 * ((l.length : ℚ) - 1))
      (by linarith : (0 : ℚ) ≤ (sortScores l).getD (min (i + 1) (l.length - 1)) 0
        - (sortScores l).getD i 0)]
  · -- strictly larger lower index: chain through the sorted list
    have hi2lt : (⌊q2 * ((l.length : ℚ) - 1)⌋).toNat < (sortScores l).length := by
      rw [sortScores_length]
      omega
    have hmid : (sortScores l).getD
        (min ((⌊q1 * ((l.length : ℚ) - 1)⌋).toNat + 1) (l.length - 1)) 0
        ≤ (sortScores l).getD ((⌊q2 * ((l.length : ℚ) - 1)⌋).toNat) 0 := by
      refine sorted_getD_mono (sortScores l) (sortScores_sorted l) _ _ ?_ hi2lt
      exact le_trans (min_le_left _ _) hlt
    exact le_trans hhi1 (le_trans hmid hlo2)

/-- C6: for a dataset with K >= 1 scored records the analysis succeeds and the
returned statistics satisfy `total_examples = K`,
`min_score <= median_score <= max_score` and `percentile_10 <= percentile_90`. -/
theorem analysis_stats_ordering {d : Nat} (a : Analyzer d) (sqrtFn : ℚ → ℚ)
    (lines : List (Except String JsonVal)) (traitName : String) (K : Nat)
    (hK : 0 < K) (hlen : (scoredPairs a lines).length = K) :
    ∃ r, analyzeDatasetFile a sqrtFn lines traitName = .ok r ∧
      r.total_examples = K ∧
      r.min_score ≤ r.median_score ∧ r.median_score ≤ r.max_score ∧
      r.percentile_10 ≤ r.percentile_90 := by
  have hne : scoredPairs a lines ≠ [] := by
    intro h
    rw [h] at hlen
    simp at hlen
    omega
  obtain ⟨r, hr⟩ := analyzeDatasetFile_ok_exists a sqrtFn lines traitName hne
  obtain ⟨ht, hmn, hmx, hmed, h90, h10⟩ := analyzeDatasetFile_ok_inv hr
  have hslne : (scoredPairs a lines).map Prod.snd ≠ [] := by
    simpa [ne_eq, List.map_eq_nil_iff] using hne
  have hlen' : ((scoredPairs a lines).map Prod.snd).length = K := by
    rw [List.length_map, hlen]
  rw [tensorMin_ne_nil _ hslne] at hmn
  rw [tensorMax_ne_nil _ hslne] at hmx
  rw [tensorMedian_ne_nil _ hslne] at hmed
  rw [tensorQuantile_ne_nil _ _ hslne] at h90
  rw [tensorQuantile_ne_nil _ _ hslne] at h10
  have emn := (Except.ok.inj hmn).symm
  have emx := (Except.ok.inj hmx).symm
  have emed := (Except.ok.inj hmed).symm
  have e90 := (Except.ok.inj h90).symm
  have e10 := (Except.ok.inj h10).symm
  set scores := (scoredPairs a lines).map Prod.snd with hsc
  have hsortlen : (sortScores scores).length = K := by rw [sortScores_length, hlen']
  refine ⟨r, hr, by rw [ht, hlen], ?_, ?_, ?_⟩
  · rw [emn, emed]
    refine sorted_getD_mono _ (sortScores_sorted scores) _ _ (Nat.zero_le _) ?_
    rw [hsortlen, hlen']
    omega
  · rw [emed, emx]
    refine sorted_getD_mono _ (sortScores_sorted scores) _ _ ?_ ?_
    · rw [hlen']; omega
    · rw [hsortlen, hlen']; omega
  · rw [e10, e90]
    exact quantileVal_mono scores hslne (1 / 10) (9 / 10) (by norm_num) (by norm_num)
      (by norm_num)

/-- Witness for C6 on the concrete two-record dataset. -/
theorem analysis_stats_ordering_witness :
    exceptIsOk (analyzeDatasetFile lenAnalyzer (fun q => q) twoRecordLines "sycophancy")
      = true := by
  obtain ⟨r, hr, -, -, -, -⟩ := analysis_stats_ordering lenAnalyzer (fun q => q)
    twoRecordLines "sycophancy" 2 (by norm_num)
    (by simp [scoredPairs_twoRecordLines])
  rw [hr]
  rfl

/-- C9: when zero records are successfully scored, `analyze_dataset_file`
raises (the statistics reduction is applied to an empty score tensor) instead
of returning a statistics object with `total_examples = 0`. -/
theorem analysis_empty_scores_raises {d : Nat} (a : Analyzer d) (sqrtFn : ℚ → ℚ)
    (lines : List (Except String JsonVal)) (traitName : String)
    (h : scoredPairs a lines = []) :
    exceptIsOk (analyzeDatasetFile a sqrtFn lines traitName) = false := by
  simp only [analyzeDatasetFile, h, List.map_nil, tensorMin, exceptBind_error]
  rfl

/-- Witness for C9: a one-line dataset whose single line is malformed. -/
theorem analysis_empty_scores_raises_witness :
    exceptIsOk (analyzeDatasetFile lenAnalyzer (fun q => q)
      [Except.error "Expecting value"] "sycophancy") = false :=
  analysis_empty_scores_raises lenAnalyzer (fun q => q)
    [Except.error "Expecting value"] "sycophancy" (by decide)

end PersonaGuardian
